import Mathlib

/-!
Verification development for the Rhasspy web gateway (`app.py`): the
websocket event-broadcast registries (`ws_queues` / `add_ws_event` and the
`/api/events/...` socket handlers), the engine lifecycle (`core`,
`start_rhasspy`, `shutdown`, `api_restart`), and the intent-observer
payload shaping (`WebSocketObserver.in_started`).

Machine state is embedded shallowly: Python dicts keyed by websocket
objects become association lists keyed by `Nat` subscriber identities,
gevent queues become `List String` (FIFO: `put` appends at the tail,
`get` takes the head), and exceptions become explicit error values.
-/

namespace Rhasspy

/-! ## Channel registries (`ws_queues` in app.py)

One channel of `ws_queues` is a dict mapping a websocket connection to its
pending-message queue.  We model it as an association list with distinct
keys (Python dict keys are unique), preserving insertion order.  -/

/-- One channel of `ws_queues`: subscriber identity paired with its
pending FIFO queue of serialized event texts. -/
def ChanState : Type := List (Nat × List String)

instance : DecidableEq ChanState := by
  unfold ChanState
  infer_instance

/-- Python dict lookup `d[w]` / `d.get(w)`: first (unique) matching key. -/
def qget (c : ChanState) (w : Nat) : Option (List String) :=
  match c with
  | [] => none
  | (v, q) :: rest => if w = v then some q else qget rest w

/-- Python dict assignment `d[w] = q`: update in place if the key is
present, otherwise append (insertion order preserved). -/
def qset (c : ChanState) (w : Nat) (q : List String) : ChanState :=
  match c with
  | [] => [(w, q)]
  | (v, q1) :: rest => if w = v then (v, q) :: rest else (v, q1) :: qset rest w q

/-- Subscriber registration, as at the top of `api_events_intent` /
`api_events_log` (app.py lines 901-904, 920-923): allocate a fresh empty
queue and store it under the connection's key. -/
def ws_subscribe (w : Nat) (c : ChanState) : ChanState :=
  qset c w []

/-- Teardown, as at the bottom of `api_events_intent` / `api_events_log`
(app.py lines 913-915, 932-934): `del ws_queues[event_type][ws]`.
Python `del` on a dict raises `KeyError` when the key is absent; we model
that with `Except`. -/
def ws_unsubscribe (w : Nat) (c : ChanState) : Except String ChanState :=
  match c with
  | [] => .error "KeyError"
  | (v, q) :: rest =>
    if w = v then .ok rest
    else
      match ws_unsubscribe w rest with
      | .error e => .error e
      | .ok c1 => .ok ((v, q) :: c1)

/-- The fan-out loop of `add_ws_event` (app.py lines 864-867): under the
channel lock, `queue.put(text)` on every registered queue.  `put` on an
unbounded gevent queue appends at the tail. -/
def ws_publish (text : String) (c : ChanState) : ChanState :=
  c.map (fun p => (p.1, p.2 ++ [text]))

/-- One operation on a single channel: a connection registering, a
connection tearing down, or `add_ws_event` publishing a text. -/
inductive Op where
  | sub (w : Nat) : Op
  | unsub (w : Nat) : Op
  | pub (m : String) : Op
deriving DecidableEq

/-- Run a sequence of channel operations from a given registry state.
`unsub` of an absent subscriber raises (propagates the `KeyError`). -/
def runOps : List Op → ChanState → Except String ChanState
  | [], c => .ok c
  | .sub w :: rest, c => runOps rest (ws_subscribe w c)
  | .unsub w :: rest, c =>
    match ws_unsubscribe w c with
    | .error e => .error e
    | .ok c1 => runOps rest c1
  | .pub m :: rest, c => runOps rest (ws_publish m c)

/-- What the claim says a subscriber's queue must hold, computed from the
trace read backwards (most recent operation first): `none` if the
subscriber's most recent registration event is an unsubscribe (or it never
registered); otherwise exactly the messages published since its most
recent subscribe, in publish order, one occurrence each. -/
def sinceLastSub : List Op → Nat → Option (List String)
  | [], _ => none
  | .sub v :: rest, w => if w = v then some [] else sinceLastSub rest w
  | .unsub v :: rest, w => if w = v then none else sinceLastSub rest w
  | .pub m :: rest, w => (sinceLastSub rest w).map (fun q => q ++ [m])

/-! ### Registry lemmas -/

/-- The keys (registered subscriber identities) of a channel registry. -/
def keys (c : ChanState) : List Nat :=
  c.map Prod.fst

theorem qget_qset (c : ChanState) (w : Nat) (q : List String) (w' : Nat) :
    qget (qset c w q) w' = if w' = w then some q else qget c w' := by
  induction c with
  | nil =>
    by_cases h : w' = w <;> simp [qset, qget, h]
  | cons p rest ih =>
    obtain ⟨v, q1⟩ := p
    by_cases hv : w = v
    · subst hv
      by_cases h : w' = w <;> simp [qset, qget, h]
    · by_cases h : w' = v
      · subst h
        have hne : ¬w' = w := fun hh => hv hh.symm
        simp [qset, qget, hv, hne]
      · simp [qset, qget, hv, h, ih]

theorem qget_publish (m : String) (c : ChanState) (w : Nat) :
    qget (ws_publish m c) w = (qget c w).map (fun q => q ++ [m]) := by
  induction c with
  | nil => simp [ws_publish, qget]
  | cons p rest ih =>
    obtain ⟨v, q⟩ := p
    have hstep : ws_publish m ((v, q) :: rest) = (v, q ++ [m]) :: ws_publish m rest := rfl
    rw [hstep]
    by_cases h : w = v
    · simp [qget, h]
    · simp [qget, h, ih]

theorem qget_none_of_not_mem_keys (c : ChanState) (w : Nat)
    (h : w ∉ keys c) : qget c w = none := by
  induction c with
  | nil => simp [qget]
  | cons p rest ih =>
    obtain ⟨v, q⟩ := p
    rw [keys, List.map_cons, List.mem_cons] at h
    push_neg at h
    rw [qget, if_neg h.1]
    exact ih h.2

theorem keys_qset_mem (c : ChanState) (w : Nat) (q : List String)
    (h : w ∈ keys c) : keys (qset c w q) = keys c := by
  induction c with
  | nil => simp [keys] at h
  | cons p rest ih =>
    obtain ⟨v, q1⟩ := p
    by_cases hv : w = v
    · subst hv
      simp [qset, keys]
    · have h2 : w ∈ keys rest := by
        simp [keys] at h ⊢
        tauto
      simp only [qset, if_neg hv, keys, List.map_cons]
      simp only [keys] at ih
      rw [ih h2]

theorem keys_qset_not_mem (c : ChanState) (w : Nat) (q : List String)
    (h : w ∉ keys c) : keys (qset c w q) = keys c ++ [w] := by
  induction c with
  | nil => simp [qset, keys]
  | cons p rest ih =>
    obtain ⟨v, q1⟩ := p
    simp only [keys, List.map_cons, List.mem_cons] at h
    push_neg at h
    simp only [qset, if_neg h.1, keys, List.map_cons]
    simp only [keys] at ih
    rw [ih h.2]
    simp

theorem nodup_keys_qset (c : ChanState) (w : Nat) (q : List String)
    (h : (keys c).Nodup) : (keys (qset c w q)).Nodup := by
  by_cases hm : w ∈ keys c
  · rw [keys_qset_mem c w q hm]
    exact h
  · rw [keys_qset_not_mem c w q hm]
    exact List.Nodup.append h (List.nodup_singleton w) (by simpa using hm)

theorem keys_unsub_sublist (w : Nat) (c c1 : ChanState)
    (h : ws_unsubscribe w c = .ok c1) :
    (keys c1).Sublist (keys c) := by
  induction c generalizing c1 with
  | nil => simp [ws_unsubscribe] at h
  | cons p rest ih =>
    obtain ⟨v, q⟩ := p
    by_cases hv : w = v
    · simp [ws_unsubscribe, hv] at h
      subst h
      exact List.sublist_cons_self _ _
    · simp only [ws_unsubscribe, if_neg hv] at h
      cases hu : ws_unsubscribe w rest with
      | error e => rw [hu] at h; simp at h
      | ok c2 =>
        rw [hu] at h
        simp at h
        subst h
        simpa [keys] using ((ih c2 hu).cons₂ v)

theorem qget_unsub (w : Nat) (c c1 : ChanState)
    (hnd : (keys c).Nodup)
    (h : ws_unsubscribe w c = .ok c1) (w' : Nat) :
    qget c1 w' = if w' = w then none else qget c w' := by
  induction c generalizing c1 with
  | nil => simp [ws_unsubscribe] at h
  | cons p rest ih =>
    obtain ⟨v, q⟩ := p
    rw [keys, List.map_cons, List.nodup_cons] at hnd
    by_cases hv : w = v
    · subst hv
      simp [ws_unsubscribe] at h
      subst h
      by_cases hw : w' = w
      · subst hw
        simp [qget_none_of_not_mem_keys rest w' hnd.1]
      · simp [qget, hw]
    · simp only [ws_unsubscribe, if_neg hv] at h
      cases hu : ws_unsubscribe w rest with
      | error e => rw [hu] at h; simp at h
      | ok c2 =>
        rw [hu] at h
        simp at h
        subst h
        by_cases hw : w' = v
        · subst hw
          have hne : ¬w' = w := fun hh => hv hh.symm
          simp [qget, hne]
        · simp [qget, hw, ih c2 hnd.2 hu]

theorem runOps_append (t1 t2 : List Op) (c : ChanState) :
    runOps (t1 ++ t2) c = (runOps t1 c).bind (fun c1 => runOps t2 c1) := by
  induction t1 generalizing c with
  | nil => simp [runOps, Except.bind]
  | cons op rest ih =>
    cases op with
    | sub w => simp [runOps, ih]
    | unsub w =>
      simp only [List.cons_append, runOps]
      cases ws_unsubscribe w c with
      | error e => simp [Except.bind]
      | ok c1 => simp [ih]
    | pub m => simp [runOps, ih]

theorem runOps_nodup_keys (t : List Op) (c c1 : ChanState)
    (hnd : (keys c).Nodup) (h : runOps t c = .ok c1) :
    (keys c1).Nodup := by
  induction t generalizing c with
  | nil =>
    simp [runOps] at h
    subst h
    exact hnd
  | cons op rest ih =>
    cases op with
    | sub w =>
      simp only [runOps] at h
      exact ih _ (nodup_keys_qset _ _ _ hnd) h
    | unsub w =>
      simp only [runOps] at h
      cases hu : ws_unsubscribe w c with
      | error e => rw [hu] at h; simp at h
      | ok c2 =>
        rw [hu] at h
        exact ih _ ((keys_unsub_sublist w c c2 hu).nodup hnd) h
    | pub m =>
      simp only [runOps] at h
      have hk : keys (ws_publish m c) = keys c := by
        simp [ws_publish, keys]
      exact ih _ (by rw [hk]; exact hnd) h

/-- **C1.** For every sequence of subscribe, unsubscribe, and publish
operations on one channel of `ws_queues` (starting from the empty registry
and raising no `KeyError`), each subscriber's final queue is exactly
`sinceLastSub`: the messages `add_ws_event` published since that
subscriber's most recent registration, in publish order, one occurrence
per publish — so a subscriber registered at the moment of a publish
receives the message exactly once (no duplication), a subscriber not
registered at that moment never holds it (no cross-talk), and a
subscriber registering later starts with an empty queue (no replay). -/
theorem ws_queue_content_eq_sinceLastSub (t : List Op) (c : ChanState) (w : Nat)
    (h : runOps t [] = .ok c) :
    qget c w = sinceLastSub t.reverse w := by
  induction t using List.reverseRecOn generalizing c with
  | nil =>
    simp [runOps] at h
    subst h
    simp [qget, sinceLastSub]
  | append_singleton t op ih =>
    rw [runOps_append] at h
    cases hr : runOps t [] with
    | error e => rw [hr] at h; simp [Except.bind] at h
    | ok cmid =>
      rw [hr] at h
      simp only [Except.bind] at h
      rw [List.reverse_append]
      simp only [List.reverse_singleton, List.singleton_append]
      cases op with
      | sub v =>
        simp only [runOps] at h
        simp at h
        subst h
        rw [sinceLastSub, ws_subscribe, qget_qset]
        by_cases hw : w = v
        · simp [hw]
        · simp [hw, ih cmid hr]
      | unsub v =>
        simp only [runOps] at h
        cases hu : ws_unsubscribe v cmid with
        | error e => rw [hu] at h; simp at h
        | ok c2 =>
          rw [hu] at h
          simp at h
          subst h
          have hnd := runOps_nodup_keys t [] cmid (by simp [keys]) hr
          rw [sinceLastSub, qget_unsub v cmid c2 hnd hu w]
          by_cases hw : w = v
          · simp [hw]
          · simp [hw, ih cmid hr]
      | pub m =>
        simp only [runOps] at h
        simp at h
        subst h
        rw [sinceLastSub, qget_publish, ih cmid hr]

/-- Witness for C1 at a concrete trace: subscriber 1 registers after
`"a"` is published (no replay), receives `"b"` and `"c"` exactly once
each, and subscriber 0, unsubscribed before `"c"`, is gone. -/
theorem ws_queue_content_eq_sinceLastSub_witness :
    runOps [Op.sub 0, Op.pub "a", Op.sub 1, Op.pub "b", Op.unsub 0, Op.pub "c"] [] =
      .ok [(1, ["b", "c"])] ∧
    qget [(1, ["b", "c"])] 1 =
      sinceLastSub [Op.sub 0, Op.pub "a", Op.sub 1, Op.pub "b",
        Op.unsub 0, Op.pub "c"].reverse 1 :=
  ⟨by rfl, ws_queue_content_eq_sinceLastSub _ _ 1 (by rfl)⟩

/-! ## Engine lifecycle (`core`, `shutdown`, `start_rhasspy`, `api_restart`)

The global `core` variable is `None` at process start.  `start_rhasspy`
(app.py lines 127-159) unconditionally constructs a fresh `RhasspyCore`
and assigns it to `core`; it contains no check of the previous value.
The atexit-registered `shutdown` (lines 119-124) calls `core.shutdown()`
and then clears `core`, guarded by `core is not None`.  Engines are
modelled by an identity plus a flag saying whether their own
`shutdown()` method raises; invocations of the engine stop sequence are
logged so "exactly once" is expressible. -/

/-- The external engine instance (`RhasspyCore`).  `stopRaises` records
whether this instance's `shutdown()` method raises when invoked. -/
structure Engine where
  id : Nat
  stopRaises : Bool
deriving DecidableEq

/-- Process-wide lifecycle state: the global `core` reference, a counter
used to give fresh engine identities, and the log of engine ids on which
the engine's stop sequence (`core.shutdown()`) has been invoked. -/
structure LifeState where
  core : Option Engine
  nextId : Nat
  stops : List Nat
deriving DecidableEq

/-- The state at process start: `core = None`. -/
def initLife : LifeState :=
  { core := none, nextId := 0, stops := [] }

/-- Invoking `core.shutdown()` on engine `e`: the stop sequence runs (is
logged), and the `Bool` reports whether it raised. -/
def engineStop (s : LifeState) (e : Engine) : LifeState × Bool :=
  ({ s with stops := s.stops ++ [e.id] }, e.stopRaises)

/-- The atexit-registered global `shutdown` (app.py lines 119-124):

    if core is not None:
        core.shutdown()
        core = None

If `core.shutdown()` raises, the exception propagates and the assignment
`core = None` on the following line is never executed.  The `Bool` of
the result reports whether the call raised. -/
def shutdown (s : LifeState) : LifeState × Bool :=
  match s.core with
  | none => (s, false)
  | some e =>
    let r := engineStop s e
    if r.2 then (r.1, true)
    else ({ r.1 with core := none }, false)

/-- `start_rhasspy` (app.py lines 127-159): unconditionally build a fresh
actor system and `RhasspyCore`, register the observer, start it, and
assign the global `core`.  There is no check of the previous value of
`core` and no failure path for an already-running engine; a fresh,
non-raising engine instance simply replaces whatever was there. -/
def start_rhasspy (s : LifeState) : LifeState :=
  { s with core := some { id := s.nextId, stopRaises := false },
           nextId := s.nextId + 1 }

/-! ## Whole-app state (`core` plus `ws_queues`) -/

/-- `WS_EVENT_INTENT = 0` (app.py line 857). -/
def wsEventIntent : Nat := 0

/-- `WS_EVENT_LOG = 1` (app.py line 858). -/
def wsEventLog : Nat := 1

/-- The websocket registries `ws_queues = [{}, {}]` (app.py line 860)
together with the lifecycle state: index 0 is the intent channel, index 1
the log channel. -/
structure AppState where
  life : LifeState
  wsIntentQueues : ChanState
  wsLogQueues : ChanState

/-- `add_ws_event(event_type, text)` (app.py lines 864-870): put `text`
on every queue currently registered in `ws_queues[event_type]`.  Only the
indices 0 and 1 exist in the program; no other index is ever passed. -/
def add_ws_event (event_type : Nat) (text : String) (a : AppState) : AppState :=
  if event_type = wsEventIntent then
    { a with wsIntentQueues := ws_publish text a.wsIntentQueues }
  else if event_type = wsEventLog then
    { a with wsLogQueues := ws_publish text a.wsLogQueues }
  else
    a

/-- `api_restart` (app.py lines 498-510): `assert core is not None`, then
`core.shutdown()` (the engine's own stop sequence, not the global
`shutdown` function — `core` itself is not reassigned here), then
`start_rhasspy()`.  The `Bool` reports whether the handler raised (the
assertion, or a raising engine stop, both propagated to `handle_error`);
in the raising cases `core` keeps its old value. -/
def api_restart (a : AppState) : AppState × Bool :=
  match a.life.core with
  | none => (a, true)
  | some e =>
    let r := engineStop a.life e
    if r.2 then ({ a with life := r.1 }, true)
    else ({ a with life := start_rhasspy r.1 }, false)

/-! ### Lifecycle theorems -/

/-- **C2, counterexample.** The claim says a second `start_rhasspy`
without an intervening shutdown fails with `AlreadyRunning` and leaves
the original engine untouched.  In the code there is no such check:
starting twice from the initial state succeeds and silently replaces the
original engine (id 0) with a fresh one (id 1). -/
theorem start_twice_replaces_engine_cex :
    (start_rhasspy (start_rhasspy initLife)).core =
      some { id := 1, stopRaises := false } ∧
    (start_rhasspy initLife).core = some { id := 0, stopRaises := false } ∧
    (start_rhasspy (start_rhasspy initLife)).core ≠ (start_rhasspy initLife).core :=
  ⟨rfl, rfl, by decide⟩

/-- **C2, amended.** `start_rhasspy` performs no `AlreadyRunning` check:
from any state (whether or not `core` is non-null) it constructs a fresh
engine instance and overwrites `core` with it, never failing; the
previous engine, if any, is simply abandoned without its stop sequence
being invoked (`stops` is unchanged). -/
theorem start_rhasspy_overwrites_core (s : LifeState) :
    (start_rhasspy s).core = some { id := s.nextId, stopRaises := false } ∧
    (start_rhasspy s).stops = s.stops :=
  ⟨rfl, rfl⟩

/-- **C3.** `shutdown` is idempotent: starting from a state with a live
engine whose stop sequence returns normally, the first call invokes the
engine's stop sequence and clears `core`; the second call (e.g. the
atexit process-termination hook after a normal-flow call) is a complete
no-op, so across both calls the stop sequence runs exactly once; and on
any state with `core` already null, `shutdown` is a no-op. -/
theorem shutdown_twice_stops_once (s : LifeState) (e : Engine)
    (hc : s.core = some e) (hr : e.stopRaises = false) :
    (shutdown s).2 = false ∧
    (shutdown s).1.core = none ∧
    (shutdown (shutdown s).1).1 = (shutdown s).1 ∧
    (shutdown (shutdown s).1).1.stops = s.stops ++ [e.id] ∧
    (∀ t : LifeState, t.core = none → shutdown t = (t, false)) := by
  refine ⟨?_, ?_, ?_, ?_, ?_⟩ <;>
    simp [shutdown, engineStop, hc, hr]
  intro t ht
  simp [shutdown, ht]

/-- A concrete started lifecycle state whose engine stops normally. -/
def exLife : LifeState :=
  { core := some { id := 0, stopRaises := false }, nextId := 1, stops := [] }

/-- Witness for C3 on a concrete started state. -/
theorem shutdown_twice_stops_once_witness :
    exLife.core = some { id := 0, stopRaises := false } ∧
    ({ id := 0, stopRaises := false } : Engine).stopRaises = false ∧
    ((shutdown exLife).2 = false ∧
     (shutdown exLife).1.core = none ∧
     (shutdown (shutdown exLife).1).1 = (shutdown exLife).1 ∧
     (shutdown (shutdown exLife).1).1.stops = exLife.stops ++ [0] ∧
     (∀ t : LifeState, t.core = none → shutdown t = (t, false))) :=
  ⟨rfl, rfl, shutdown_twice_stops_once _ _ rfl rfl⟩

/-- A concrete started lifecycle state whose engine stop sequence
raises. -/
def exLifeRaise : LifeState :=
  { core := some { id := 3, stopRaises := true }, nextId := 4, stops := [2] }

/-- **C7, counterexample.** The claim says a raising engine stop still
leaves `core` cleared to null.  In the code `core = None` is only
reached after `core.shutdown()` returns: with an engine whose stop
sequence raises, `shutdown` propagates the exception and `core` still
holds the dead engine. -/
theorem shutdown_raise_core_not_cleared_cex :
    (shutdown exLifeRaise).1.core = some { id := 3, stopRaises := true } ∧
    (shutdown exLifeRaise).2 = true :=
  ⟨rfl, rfl⟩

/-- **C7, amended.** If the engine's stop sequence raises during
`shutdown`, the exception propagates out of `shutdown` before the
assignment `core = None` is reached: `core` keeps pointing at the dead
engine.  `core` is cleared only when the stop sequence returns
normally. -/
theorem shutdown_raise_leaves_core (s : LifeState) (e : Engine)
    (hc : s.core = some e) (hr : e.stopRaises = true) :
    (shutdown s).1.core = some e ∧ (shutdown s).2 = true := by
  constructor <;> simp [shutdown, engineStop, hc, hr]

/-- Witness for the amended C7 on a concrete state with a raising
engine. -/
theorem shutdown_raise_leaves_core_witness :
    exLifeRaise.core = some { id := 3, stopRaises := true } ∧
    ({ id := 3, stopRaises := true } : Engine).stopRaises = true ∧
    ((shutdown exLifeRaise).1.core = some { id := 3, stopRaises := true } ∧
     (shutdown exLifeRaise).2 = true) :=
  ⟨rfl, rfl, shutdown_raise_leaves_core _ _ rfl rfl⟩

/-- **C9.** `api_restart` never touches the websocket registries: on
every path (null-core assertion, raising engine stop, successful
restart) both `ws_queues` channels are left exactly as they were, so a
session blocked on its queue keeps its already-delivered messages
(published before the restart), and a publish performed after the
restart still reaches it, appended in order. -/
theorem api_restart_preserves_queues (a : AppState) (w : Nat)
    (q : List String) (m : String)
    (h : qget a.wsLogQueues w = some q) :
    (api_restart a).1.wsIntentQueues = a.wsIntentQueues ∧
    (api_restart a).1.wsLogQueues = a.wsLogQueues ∧
    qget (add_ws_event wsEventLog m (api_restart a).1).wsLogQueues w =
      some (q ++ [m]) := by
  have hframe : (api_restart a).1.wsIntentQueues = a.wsIntentQueues ∧
      (api_restart a).1.wsLogQueues = a.wsLogQueues := by
    cases hc : a.life.core with
    | none => simp [api_restart, hc]
    | some e =>
      by_cases hr : e.stopRaises <;>
        simp [api_restart, hc, engineStop, hr]
  refine ⟨hframe.1, hframe.2, ?_⟩
  simp [add_ws_event, wsEventIntent, wsEventLog, hframe.2, qget_publish, h]

/-- A concrete app state: engine running, no intent subscribers, one log
subscriber (id 7) holding one already-delivered message. -/
def exApp : AppState :=
  { life := exLife, wsIntentQueues := [], wsLogQueues := [(7, ["x"])] }

/-- Witness for C9: the log subscriber keeps its pre-restart message and
receives a post-restart publish. -/
theorem api_restart_preserves_queues_witness :
    qget exApp.wsLogQueues 7 = some ["x"] ∧
    ((api_restart exApp).1.wsIntentQueues = exApp.wsIntentQueues ∧
     (api_restart exApp).1.wsLogQueues = exApp.wsLogQueues ∧
     qget (add_ws_event wsEventLog "y" (api_restart exApp).1).wsLogQueues 7 =
       some (["x"] ++ ["y"])) :=
  ⟨rfl, api_restart_preserves_queues _ 7 ["x"] "y" rfl⟩

/-! ### Teardown semantics (C4) -/

theorem qget_eq_none_iff (c : ChanState) (w : Nat) :
    qget c w = none ↔ w ∉ keys c := by
  induction c with
  | nil => simp [qget, keys]
  | cons p rest ih =>
    obtain ⟨v, q⟩ := p
    by_cases h : w = v <;> simp [qget, keys, h, ih]

theorem ws_unsubscribe_error_of_not_mem (c : ChanState) (w : Nat)
    (h : w ∉ keys c) : ws_unsubscribe w c = .error "KeyError" := by
  induction c with
  | nil => rfl
  | cons p rest ih =>
    obtain ⟨v, q⟩ := p
    rw [keys, List.map_cons, List.mem_cons] at h
    push_neg at h
    simp [ws_unsubscribe, h.1, ih h.2]

/-- **C4, counterexample.** The claim says removing an absent subscriber
completes as a no-op.  The teardown of `api_events_intent` /
`api_events_log` is `del ws_queues[event_type][ws]`, and Python `del`
on a dict raises `KeyError` for an absent key: on the empty registry the
removal raises instead of no-opping. -/
theorem ws_unsubscribe_absent_raises_cex :
    ws_unsubscribe 0 [] = .error "KeyError" :=
  rfl

/-- **C4, amended.** Teardown (`del ws_queues[event_type][ws]`) is not
idempotent: a successful removal deletes exactly that subscriber's entry
(other subscribers' queues are untouched), and running the same teardown
a second time — or running it for any subscriber absent from the
registry — raises `KeyError` rather than completing as a no-op.  (In the
running program each handler deletes only the key it inserted, exactly
once, so the raise is never reached.) -/
theorem ws_unsubscribe_not_idempotent (c c1 : ChanState) (w : Nat)
    (hnd : (keys c).Nodup) (h : ws_unsubscribe w c = .ok c1) :
    qget c1 w = none ∧
    (∀ w', w' ≠ w → qget c1 w' = qget c w') ∧
    ws_unsubscribe w c1 = .error "KeyError" := by
  have hq := qget_unsub w c c1 hnd h
  refine ⟨by simp [hq], ?_, ?_⟩
  · intro w' hw
    simp [hq, hw]
  · exact ws_unsubscribe_error_of_not_mem c1 w
      ((qget_eq_none_iff c1 w).mp (by simp [hq]))

/-- Witness for the amended C4 on a concrete one-subscriber registry. -/
theorem ws_unsubscribe_not_idempotent_witness :
    (keys [(0, ["a"])]).Nodup ∧
    ws_unsubscribe 0 [(0, ["a"])] = .ok [] ∧
    (qget ([] : ChanState) 0 = none ∧
     (∀ w', w' ≠ 0 → qget ([] : ChanState) w' = qget [(0, ["a"])] w') ∧
     ws_unsubscribe 0 ([] : ChanState) = .error "KeyError") :=
  ⟨by decide, rfl, ws_unsubscribe_not_idempotent _ _ 0 (by decide) rfl⟩

/-! ### Producers of the intent channel (C5)

`add_ws_event` is called from exactly five places in app.py:
`api_text_to_intent` (line 551), `api_speech_to_intent` (line 587),
`api_stop_recording` (line 631), the root-logger handler installed at
line 874, and `WebSocketObserver.in_started` (line 893).  -/

/-- The call sites of `add_ws_event` in app.py. -/
inductive PublishSite where
  | apiTextToIntent : PublishSite
  | apiSpeechToIntent : PublishSite
  | apiStopRecording : PublishSite
  | rootLogHandler : PublishSite
  | observerInStarted : PublishSite
deriving DecidableEq

/-- The channel index each call site passes to `add_ws_event`: the three
intent HTTP handlers and the observer pass `WS_EVENT_INTENT`; only the
root-logger handler passes `WS_EVENT_LOG`. -/
def siteChannel : PublishSite → Nat
  | .apiTextToIntent => wsEventIntent
  | .apiSpeechToIntent => wsEventIntent
  | .apiStopRecording => wsEventIntent
  | .rootLogHandler => wsEventLog
  | .observerInStarted => wsEventIntent

/-- **C5, counterexample.** The claim says no publish to the intent
channel originates anywhere other than the observer's recognized-intent
path.  But `api_text_to_intent` publishes to the intent channel and is
not the observer's callback. -/
theorem intent_publish_not_only_observer_cex :
    siteChannel PublishSite.apiTextToIntent = wsEventIntent ∧
    PublishSite.apiTextToIntent ≠ PublishSite.observerInStarted :=
  ⟨rfl, by decide⟩

/-- **C5, amended.** The intent channel has four producers — the
observer's recognized-intent callback plus the three intent-returning
HTTP handlers (`api_text_to_intent`, `api_speech_to_intent`,
`api_stop_recording`) — i.e. every `add_ws_event` call site except the
root-logger handler publishes to the intent channel; log lines are
published (by the root-logger handler) on behalf of any part of the
process. -/
theorem intent_channel_has_four_producers (s : PublishSite) :
    siteChannel s = wsEventIntent ↔ s ≠ PublishSite.rootLogHandler := by
  cases s <;> simp [siteChannel, wsEventIntent, wsEventLog]

/-! ## JSON payloads and the intent observer (C6, C10)

Intent payloads are Python dicts produced by `json` round-trips, so keys
are strings and insertion order is preserved: we model them as ordered
association lists of `JValue`s.  -/

/-- A JSON value, as held in the intent payload dicts. -/
inductive JValue where
  | null : JValue
  | bool (b : Bool) : JValue
  | num (n : Int) : JValue
  | str (s : String) : JValue
  | arr (xs : List JValue) : JValue
  | obj (fields : List (String × JValue)) : JValue

/-- Python dict lookup `d.get(k)` on a string-keyed dict (keys unique,
first match). -/
def dictGet (d : List (String × JValue)) (k : String) : Option JValue :=
  match d with
  | [] => none
  | (k1, v) :: rest => if k = k1 then some v else dictGet rest k

/-- Python dict assignment `d[k] = v`: update in place if present
(position preserved), else append. -/
def dictSet (d : List (String × JValue)) (k : String) (v : JValue) :
    List (String × JValue) :=
  match d with
  | [] => [(k, v)]
  | (k1, v1) :: rest =>
    if k = k1 then (k1, v) :: rest else (k1, v1) :: dictSet rest k v

/-- String escaping as performed by `json.dumps` for the quote and
backslash characters (control-character and non-ASCII escapes are not
needed by any payload considered here). -/
def jsonEscapeChar (c : Char) : String :=
  if c = '"' then "\\\""
  else if c = '\\' then "\\\\"
  else String.singleton c

def jsonEscape (s : String) : String :=
  String.join (s.toList.map jsonEscapeChar)

mutual

/-- `json.dumps` with its default separators. -/
def dumps : JValue → String
  | .null => "null"
  | .bool b => if b then "true" else "false"
  | .num n => toString n
  | .str s => "\"" ++ jsonEscape s ++ "\""
  | .arr xs => "[" ++ dumpsItems xs ++ "]"
  | .obj fs => "\x7b" ++ dumpsFields fs ++ "\x7d"

def dumpsItems : List JValue → String
  | [] => ""
  | [x] => dumps x
  | x :: y :: rest => dumps x ++ ", " ++ dumpsItems (y :: rest)

def dumpsFields : List (String × JValue) → String
  | [] => ""
  | [(k, v)] => "\"" ++ jsonEscape k ++ "\": " ++ dumps v
  | (k, v) :: f :: rest =>
    "\"" ++ jsonEscape k ++ "\": " ++ dumps v ++ ", " ++ dumpsFields (f :: rest)

end

/-- A message delivered to the `WebSocketObserver` actor: either the
dialogue manager's `IntentRecognized` notification carrying the intent
payload dict, or anything else (ignored by the callback). -/
inductive ActorMessage where
  | intentRecognized (intent : List (String × JValue)) : ActorMessage
  | other : ActorMessage

/-- The slot-flattening loop of `WebSocketObserver.in_started` (app.py
lines 884-886):

    intent_slots = \x7b\x7d
    for ev in message.intent.get("entities", []):
        intent_slots[ev["entity"]] = ev["value"]

`ev["entity"]` / `ev["value"]` raise `KeyError` when absent (`TypeError`
when `ev` is not a dict); entity names are the recognizer's strings. -/
def flattenEntities : List JValue → List (String × JValue) →
    Except String (List (String × JValue))
  | [], acc => .ok acc
  | ev :: rest, acc =>
    match ev with
    | .obj fields =>
      match dictGet fields "entity", dictGet fields "value" with
      | some (.str name), some v => flattenEntities rest (dictSet acc name v)
      | _, _ => .error "KeyError"
    | _ => .error "TypeError"

/-- `WebSocketObserver.in_started` (app.py lines 881-896), returning the
list of `add_ws_event` calls (channel index, text) the callback makes:
for an `IntentRecognized` message it flattens the entity list into
`intent["slots"]`, serializes the intent with `json.dumps`, and calls
`add_ws_event(WS_EVENT_INTENT, intent_json)` once (the trailing
`requests.get(.../api/ping)` is the scheduler kick, not a publish); any
other message produces no publish. -/
def in_started (msg : ActorMessage) : Except String (List (Nat × String)) :=
  match msg with
  | .other => .ok []
  | .intentRecognized intent =>
    match (dictGet intent "entities").getD (.arr []) with
    | .arr evs =>
      match flattenEntities evs [] with
      | .error e => .error e
      | .ok slots =>
        .ok [(wsEventIntent, dumps (.obj (dictSet intent "slots" (.obj slots))))]
    | _ => .error "TypeError"

/-- A well-formed recognizer entity: a dict with a string `"entity"`
name and a `"value"`. -/
def wfEntity (ev : JValue) : Bool :=
  match ev with
  | .obj fields =>
    match dictGet fields "entity", dictGet fields "value" with
    | some (.str _), some _ => true
    | _, _ => false
  | _ => false

theorem flattenEntities_ok (evs : List JValue) (acc : List (String × JValue))
    (h : evs.all wfEntity = true) :
    ∃ slots, flattenEntities evs acc = .ok slots := by
  induction evs generalizing acc with
  | nil => exact ⟨acc, rfl⟩
  | cons ev rest ih =>
    rw [List.all_cons, Bool.and_eq_true] at h
    cases ev with
    | obj fields =>
      cases hn : dictGet fields "entity" with
      | none => simp [wfEntity, hn] at h
      | some nv =>
        cases nv with
        | str name =>
          cases hv : dictGet fields "value" with
          | none => simp [wfEntity, hn, hv] at h
          | some v =>
            obtain ⟨slots, hs⟩ := ih (dictSet acc name v) h.2
            refine ⟨slots, ?_⟩
            simp [flattenEntities, hn, hv, hs]
        | null => simp [wfEntity, hn] at h
        | bool b => simp [wfEntity, hn] at h
        | num n => simp [wfEntity, hn] at h
        | arr xs => simp [wfEntity, hn] at h
        | obj fs => simp [wfEntity, hn] at h
    | null => simp [wfEntity] at h
    | bool b => simp [wfEntity] at h
    | num n => simp [wfEntity] at h
    | str s => simp [wfEntity] at h
    | arr xs => simp [wfEntity] at h

/-- **C6.** For every `IntentRecognized` notification whose entity list
is the (possibly absent, defaulted-empty) `"entities"` value and whose
entities are well-formed recognizer entities, `in_started` flattens the
entity list into a single flat name-to-value map, merges it into the
intent payload under the `"slots"` key, serializes the result with
`json.dumps`, and makes exactly one publish — to the intent channel —
synchronously within the callback. -/
theorem in_started_single_publish (intent : List (String × JValue))
    (evs : List JValue)
    (h1 : (dictGet intent "entities").getD (.arr []) = .arr evs)
    (h2 : evs.all wfEntity = true) :
    ∃ slots, flattenEntities evs [] = .ok slots ∧
      in_started (.intentRecognized intent) =
        .ok [(wsEventIntent, dumps (.obj (dictSet intent "slots" (.obj slots))))] := by
  obtain ⟨slots, hs⟩ := flattenEntities_ok evs [] h2
  refine ⟨slots, hs, ?_⟩
  rw [in_started, h1]
  simp [hs]

/-- A concrete `IntentRecognized` payload with one entity. -/
def exIntent : List (String × JValue) :=
  [("intent", .obj [("name", .str "TurnOn")]),
   ("entities", .arr [.obj [("entity", .str "e"), ("value", .str "v")]])]

/-- Witness for C6 on a concrete recognized intent. -/
theorem in_started_single_publish_witness :
    (dictGet exIntent "entities").getD (.arr []) =
      .arr [.obj [("entity", .str "e"), ("value", .str "v")]] ∧
    ([JValue.obj [("entity", .str "e"), ("value", .str "v")]]).all wfEntity = true ∧
    (∃ slots,
      flattenEntities [.obj [("entity", .str "e"), ("value", .str "v")]] [] =
        .ok slots ∧
      in_started (.intentRecognized exIntent) =
        .ok [(wsEventIntent, dumps (.obj (dictSet exIntent "slots" (.obj slots))))]) :=
  ⟨rfl, rfl, in_started_single_publish exIntent _ rfl rfl⟩

/-! ### Duplicate entity names (C10) -/

/-- The value of the last entity in list order whose `"entity"` name is
`name`; `none` when no entity carries that name. -/
def lastEntityValue (evs : List JValue) (name : String) : Option JValue :=
  match evs with
  | [] => none
  | ev :: rest =>
    match lastEntityValue rest name with
    | some v => some v
    | none =>
      match ev with
      | .obj fields =>
        match dictGet fields "entity" with
        | some (.str n) => if name = n then dictGet fields "value" else none
        | _ => none
      | _ => none

theorem dictGet_dictSet (d : List (String × JValue)) (k : String) (v : JValue)
    (k' : String) :
    dictGet (dictSet d k v) k' = if k' = k then some v else dictGet d k' := by
  induction d with
  | nil => by_cases h : k' = k <;> simp [dictSet, dictGet, h]
  | cons p rest ih =>
    obtain ⟨k1, v1⟩ := p
    by_cases hk : k = k1
    · subst hk
      by_cases h : k' = k <;> simp [dictSet, dictGet, h]
    · by_cases h : k' = k1
      · subst h
        have hne : ¬k' = k := fun hh => hk hh.symm
        simp [dictSet, dictGet, hk, hne]
      · simp [dictSet, dictGet, hk, h, ih]

theorem flattenEntities_get (evs : List JValue) (name : String) :
    ∀ acc slots : List (String × JValue),
    flattenEntities evs acc = .ok slots →
    dictGet slots name =
      (match lastEntityValue evs name with
       | some v => some v
       | none => dictGet acc name) := by
  induction evs with
  | nil =>
    intro acc slots h
    simp [flattenEntities] at h
    subst h
    simp [lastEntityValue]
  | cons ev rest ih =>
    intro acc slots h
    cases ev with
    | obj fields =>
      cases hn : dictGet fields "entity" with
      | none => simp [flattenEntities, hn] at h
      | some nv =>
        cases nv with
        | str n =>
          cases hv : dictGet fields "value" with
          | none => simp [flattenEntities, hn, hv] at h
          | some v =>
            have h2 : flattenEntities rest (dictSet acc n v) = .ok slots := by
              simpa [flattenEntities, hn, hv] using h
            rw [ih _ _ h2]
            cases hl : lastEntityValue rest name with
            | some w => simp [lastEntityValue, hl]
            | none =>
              simp only [lastEntityValue, hl, hn, dictGet_dictSet]
              by_cases hname : name = n
              · simp [hname, hv]
              · simp [hname]
        | null => simp [flattenEntities, hn] at h
        | bool b => simp [flattenEntities, hn] at h
        | num m => simp [flattenEntities, hn] at h
        | arr xs => simp [flattenEntities, hn] at h
        | obj fs => simp [flattenEntities, hn] at h
    | null => simp [flattenEntities] at h
    | bool b => simp [flattenEntities] at h
    | num m => simp [flattenEntities] at h
    | str s => simp [flattenEntities] at h
    | arr xs => simp [flattenEntities] at h

/-- **C10.** When the entity list of an `IntentRecognized` notification
contains several entities with the same `"entity"` name, the flat map
the observer merges under `"slots"` (and publishes to the intent
channel, per the flattening loop of `in_started`) holds, for each name,
only the value of the last entity with that name in list order: earlier
same-named entities are silently overwritten. -/
theorem flattened_slots_last_value_wins (evs : List JValue)
    (slots : List (String × JValue)) (name : String)
    (hs : flattenEntities evs [] = .ok slots) :
    dictGet slots name = lastEntityValue evs name := by
  rw [flattenEntities_get evs name [] slots hs]
  cases hl : lastEntityValue evs name <;> simp [dictGet]

/-- Two entities sharing the name `"e"`, with values 1 and 2. -/
def exDupEntities : List JValue :=
  [.obj [("entity", .str "e"), ("value", .num 1)],
   .obj [("entity", .str "e"), ("value", .num 2)]]

/-- Witness for C10: with duplicate names, the published slot value for
`"e"` is 2 — the last one — not 1. -/
theorem flattened_slots_last_value_wins_witness :
    flattenEntities exDupEntities [] = .ok [("e", .num 2)] ∧
    dictGet [("e", .num 2)] "e" = lastEntityValue exDupEntities "e" :=
  ⟨rfl, flattened_slots_last_value_wins exDupEntities [("e", .num 2)] "e" rfl⟩

/-! ## Null-core request handling (C8)

Every HTTP handler that reads the engine opens with
`assert core is not None` (e.g. `api_profiles`, app.py line 170); a bare
`AssertionError` carries the empty message, and the app-level
`handle_error` (lines 791-794) turns any exception into the response
`(str(err), 500)`.  -/

/-- The engine-derived values `api_profiles` reads when `core` is live:
`core.profile.name` and the result of `core.check_profile()`. -/
structure CoreData where
  profileName : String
  missingFiles : List String

/-- `api_profiles` (app.py lines 167-190): `assert core is not None`
raises a bare `AssertionError` (modelled as `.error ""` since
`str(AssertionError())` is the empty string) when the engine handle is
null; otherwise the handler returns the JSON body built from the sorted
profile directory listing (taken here as the `profileNames` argument)
and the engine. -/
def api_profiles (core : Option CoreData) (profileNames : List String) :
    Except String String :=
  match core with
  | none => .error ""
  | some c =>
    .ok (dumps (.obj
      [("default_profile", .str c.profileName),
       ("profiles", .arr (profileNames.map JValue.str)),
       ("downloaded", .bool c.missingFiles.isEmpty),
       ("missing_files", .arr (c.missingFiles.map JValue.str))]))

/-- `handle_error` (app.py lines 791-794): every exception becomes the
response `(str(err), 500)`. -/
def handle_error (err : String) : String × Nat :=
  (err, 500)

/-- Flask dispatch around a handler: a normal return is a 200 response,
an exception goes through `handle_error`. -/
def runHandler (r : Except String String) : String × Nat :=
  match r with
  | .ok body => (body, 200)
  | .error e => handle_error e

/-- **C8, counterexample.** The claim says a null engine handle is
surfaced as a clear, retryable `EngineNotReady` failure.  Actually the
handler's `assert core is not None` raises a bare `AssertionError`, and
the response the caller sees is status 500 with an empty body — no
`EngineNotReady` marker, no retryable status, indistinguishable from any
other empty-message error. -/
theorem api_profiles_null_core_cex :
    runHandler (api_profiles none ["en"]) = ("", 500) :=
  rfl

/-- **C8, amended.** A handler that reads the engine handle guards it
with `assert core is not None`: with a null handle it raises
`AssertionError`, which `handle_error` converts into an HTTP 500
response whose body is the exception's empty string — the process does
not crash and the request is answered, but no distinct `EngineNotReady`
condition is surfaced. -/
theorem null_core_surfaces_empty_500 (profileNames : List String) :
    runHandler (api_profiles none profileNames) = ("", 500) :=
  rfl

end Rhasspy
